import Mathlib

/-!
Verification development for the input-dependency analyzer.

The development shallowly embeds the code of
`src/Analysis/CachedInputDependencyAnalysis.cpp`,
`src/Analysis/DependencyAnaliser.h` (the
`NonDeterministicReflectingBasicBlockAnaliser` implementation),
`src/unnamed/part_000` (`LibraryInfoManager`) and
`src/Analysis/InputDependencyStatistics.cpp`.

Types that the embedded code uses but whose implementation is not part of
the analysed sources (`DepInfo`, `ValueDepInfo`, the base-class operations
of the reflecting basic-block analysers, `LibFunctionInfo`,
`Utils::haveIntersection`) are modelled from the specification; each such
definition carries a doc comment starting with `Modelled from the spec:`.
-/

/-- Modelled from the spec: the `DependencyInfo` lattice element
(`DepInfo.h` is not among the analysed sources).  Per the data model it is
one of `INPUT_INDEP` (bottom), `INPUT_ARG_DEP(S)` over a set of formal
arguments, `VALUE_DEP(S)` over a set of named external values, and
`INPUT_DEP` (top).  Arguments and value names are both represented by
natural-number identifiers. -/
inductive DepInfo where
  | inputIndep : DepInfo
  | inputArgDep (args : Finset Nat) : DepInfo
  | valueDep (values : Finset Nat) : DepInfo
  | inputDep : DepInfo
deriving DecidableEq

/-- Modelled from the spec: `INPUT_DEP` test. -/
def DepInfo.isInputDep : DepInfo → Bool
  | .inputDep => true
  | _ => false

/-- Modelled from the spec: `INPUT_INDEP` test. -/
def DepInfo.isInputIndep : DepInfo → Bool
  | .inputIndep => true
  | _ => false

/-- Modelled from the spec: `INPUT_ARG_DEP` test. -/
def DepInfo.isInputArgumentDep : DepInfo → Bool
  | .inputArgDep _ => true
  | _ => false

/-- Modelled from the spec: `VALUE_DEP` test. -/
def DepInfo.isValueDep : DepInfo → Bool
  | .valueDep _ => true
  | _ => false

/-- Modelled from the spec: the referenced argument set (empty for the
other cases). -/
def DepInfo.getArgumentDependencies : DepInfo → Finset Nat
  | .inputArgDep s => s
  | _ => ∅

/-- Modelled from the spec: the referenced value set (empty for the other
cases). -/
def DepInfo.getValueDependencies : DepInfo → Finset Nat
  | .valueDep s => s
  | _ => ∅

/-- Modelled from the spec: the merge (join) of the four-case lattice.
`INPUT_DEP` absorbs any operand, `INPUT_INDEP` is the identity, two
same-kind refinable elements union their sets, and mixed kinds merge to
the later-listed kind (`VALUE_DEP`) with the two sets unioned. -/
def DepInfo.mergeDependencies : DepInfo → DepInfo → DepInfo
  | .inputDep, _ => .inputDep
  | _, .inputDep => .inputDep
  | .inputIndep, y => y
  | x, .inputIndep => x
  | .inputArgDep s, .inputArgDep t => .inputArgDep (s ∪ t)
  | .inputArgDep s, .valueDep t => .valueDep (s ∪ t)
  | .valueDep s, .inputArgDep t => .valueDep (s ∪ t)
  | .valueDep s, .valueDep t => .valueDep (s ∪ t)

/-- The lattice (information) order induced by the merge operation. -/
def DepInfo.le (x y : DepInfo) : Prop := DepInfo.mergeDependencies x y = y

instance (x y : DepInfo) : Decidable (DepInfo.le x y) :=
  inferInstanceAs (Decidable (DepInfo.mergeDependencies x y = y))

theorem DepInfo.merge_inputDep_right (x : DepInfo) :
    DepInfo.mergeDependencies x DepInfo.inputDep = DepInfo.inputDep := by
  cases x <;> rfl

theorem DepInfo.merge_inputDep_left (x : DepInfo) :
    DepInfo.mergeDependencies DepInfo.inputDep x = DepInfo.inputDep := by
  cases x <;> rfl

theorem DepInfo.merge_inputIndep_right (x : DepInfo) :
    DepInfo.mergeDependencies x DepInfo.inputIndep = x := by
  cases x <;> rfl

theorem DepInfo.merge_comm (x y : DepInfo) :
    DepInfo.mergeDependencies x y = DepInfo.mergeDependencies y x := by
  cases x <;> cases y <;> simp [DepInfo.mergeDependencies, Finset.union_comm]

theorem DepInfo.merge_assoc (x y z : DepInfo) :
    DepInfo.mergeDependencies (DepInfo.mergeDependencies x y) z =
      DepInfo.mergeDependencies x (DepInfo.mergeDependencies y z) := by
  cases x <;> cases y <;> cases z <;>
    simp [DepInfo.mergeDependencies, Finset.union_assoc]

theorem DepInfo.merge_idem (x : DepInfo) :
    DepInfo.mergeDependencies x x = x := by
  cases x <;> simp [DepInfo.mergeDependencies]

theorem DepInfo.le_refl (x : DepInfo) : DepInfo.le x x := DepInfo.merge_idem x

theorem DepInfo.le_inputDep (x : DepInfo) : DepInfo.le x DepInfo.inputDep :=
  DepInfo.merge_inputDep_right x

theorem DepInfo.le_merge_right (x y : DepInfo) :
    DepInfo.le y (DepInfo.mergeDependencies x y) := by
  unfold DepInfo.le
  rw [← DepInfo.merge_assoc, DepInfo.merge_comm y x]
  rw [DepInfo.merge_assoc, DepInfo.merge_idem]

theorem DepInfo.le_merge_left (x y : DepInfo) :
    DepInfo.le x (DepInfo.mergeDependencies x y) := by
  rw [DepInfo.merge_comm x y]
  exact DepInfo.le_merge_right y x

/-- C6: the DependencyInfo merge is commutative, associative and
idempotent; `INPUT_DEP` absorbs any operand and `INPUT_INDEP` is the
identity; merging two argument-dependent or two value-dependent elements
unions their sets; and every merge result is again one of the four
lattice cases. -/
theorem depInfo_merge_lattice (x y z : DepInfo) (s t : Finset Nat) :
    DepInfo.mergeDependencies x y = DepInfo.mergeDependencies y x ∧
    DepInfo.mergeDependencies (DepInfo.mergeDependencies x y) z =
      DepInfo.mergeDependencies x (DepInfo.mergeDependencies y z) ∧
    DepInfo.mergeDependencies x x = x ∧
    DepInfo.mergeDependencies x DepInfo.inputDep = DepInfo.inputDep ∧
    DepInfo.mergeDependencies x DepInfo.inputIndep = x ∧
    DepInfo.mergeDependencies (DepInfo.inputArgDep s) (DepInfo.inputArgDep t) =
      DepInfo.inputArgDep (s ∪ t) ∧
    DepInfo.mergeDependencies (DepInfo.valueDep s) (DepInfo.valueDep t) =
      DepInfo.valueDep (s ∪ t) ∧
    (DepInfo.mergeDependencies x y = DepInfo.inputIndep ∨
     DepInfo.mergeDependencies x y = DepInfo.inputDep ∨
     (∃ u, DepInfo.mergeDependencies x y = DepInfo.inputArgDep u) ∨
     (∃ u, DepInfo.mergeDependencies x y = DepInfo.valueDep u)) := by
  refine ⟨DepInfo.merge_comm x y, DepInfo.merge_assoc x y z,
    DepInfo.merge_idem x, DepInfo.merge_inputDep_right x,
    DepInfo.merge_inputIndep_right x, rfl, rfl, ?_⟩
  cases x <;> cases y <;> simp [DepInfo.mergeDependencies]

/-- Modelled from the spec: `CompositeValueDependency` / `ValueDepInfo` —
a `DepInfo` plus, for aggregate-typed values, a per-element mapping from
element selector to `DepInfo` (empty for non-aggregates). -/
structure ValueDepInfo where
  dep : DepInfo
  elementDeps : List DepInfo
deriving DecidableEq

/-- Modelled from the spec: a composite is input dependent when its
overall dependency is `INPUT_DEP`. -/
def ValueDepInfo.isInputDep (v : ValueDepInfo) : Bool := v.dep.isInputDep

/-- Modelled from the spec: a composite is input independent when its
overall dependency is `INPUT_INDEP`. -/
def ValueDepInfo.isInputIndep (v : ValueDepInfo) : Bool := v.dep.isInputIndep

/-- Modelled from the spec: merging a plain `DepInfo` into a composite
folds it into the overall dependency and into every element. -/
def ValueDepInfo.mergeWith (v : ValueDepInfo) (d : DepInfo) : ValueDepInfo :=
  { dep := v.dep.mergeDependencies d,
    elementDeps := v.elementDeps.map (fun e => e.mergeDependencies d) }

/-- Modelled from the spec: merging two composites merges the overall
dependencies and the element dependencies pointwise. -/
def ValueDepInfo.mergeDependencies (a b : ValueDepInfo) : ValueDepInfo :=
  { dep := a.dep.mergeDependencies b.dep,
    elementDeps := List.zipWith DepInfo.mergeDependencies a.elementDeps b.elementDeps }

/-- Modelled from the spec: `updateCompositeValueDep` replaces the overall
dependency and every element dependency by the given `DepInfo`. -/
def ValueDepInfo.updateCompositeValueDep (v : ValueDepInfo) (d : DepInfo) : ValueDepInfo :=
  { dep := d, elementDeps := v.elementDeps.map (fun _ => d) }

/-- Pointwise lattice order on composites. -/
def ValueDepInfo.le (a b : ValueDepInfo) : Prop :=
  DepInfo.le a.dep b.dep ∧ List.Forall₂ DepInfo.le a.elementDeps b.elementDeps

/-- Lattice order on optional composites: both absent, or both present
and pointwise ordered. -/
def optionValueDepInfoLe : Option ValueDepInfo → Option ValueDepInfo → Prop
  | none, none => True
  | some a, some b => ValueDepInfo.le a b
  | _, _ => False

/-- State of a `NonDeterministicReflectingBasicBlockAnaliser`
(`src/Analysis/DependencyAnaliser.h`): the stored dependency maps of the
base analyser (values, per-element composites, instructions, argument
values, the return value), the ambient non-deterministic context
`m_nonDeterministicDeps`, and the block flag `m_is_inputDep`.  Values and
instructions are identified by natural numbers. -/
structure NonDeterministicReflectingBasicBlockAnaliser where
  m_valueDependencies : Nat → Option ValueDepInfo
  m_compositeDependencies : Nat → Nat → Option ValueDepInfo
  m_instructionDependencies : Nat → DepInfo
  m_argumentValueDependencies : Nat → ValueDepInfo
  m_returnValueDependencies : ValueDepInfo
  m_nonDeterministicDeps : DepInfo
  m_is_inputDep : Bool

/-- Modelled from the spec: the base (reflecting) analyser's instruction
read looks up the stored instruction-dependency map (spec section 4.3 state). -/
def ReflectingBasicBlockAnaliser.getInstructionDependencies
    (st : NonDeterministicReflectingBasicBlockAnaliser) (instr : Nat) : DepInfo :=
  st.m_instructionDependencies instr

/-- Modelled from the spec: the base analyser's value read looks up the
stored value-dependency map; an absent entry is an undefined result. -/
def ReflectingBasicBlockAnaliser.getValueDependencies
    (st : NonDeterministicReflectingBasicBlockAnaliser) (value : Nat) :
    Option ValueDepInfo :=
  st.m_valueDependencies value

/-- Modelled from the spec: the base analyser's composite-element read. -/
def ReflectingBasicBlockAnaliser.getCompositeValueDependencies
    (st : NonDeterministicReflectingBasicBlockAnaliser) (value elInstr : Nat) :
    Option ValueDepInfo :=
  st.m_compositeDependencies value elInstr

/-- Modelled from the spec: the base analyser's argument-value dependency
lookup. -/
def ReflectingBasicBlockAnaliser.getArgumentValueDependecnies
    (st : NonDeterministicReflectingBasicBlockAnaliser) (argVal : Nat) :
    ValueDepInfo :=
  st.m_argumentValueDependencies argVal

/-- Modelled from the spec: the base analyser's value write stores the
given dependency in the value map. -/
def ReflectingBasicBlockAnaliser.updateValueDependencies
    (st : NonDeterministicReflectingBasicBlockAnaliser) (value : Nat)
    (info : ValueDepInfo) : NonDeterministicReflectingBasicBlockAnaliser :=
  { st with m_valueDependencies :=
      fun v => if v = value then some info else st.m_valueDependencies v }

/-- Modelled from the spec: the base analyser's instruction write stores
the given dependency in the instruction map. -/
def ReflectingBasicBlockAnaliser.updateInstructionDependencies
    (st : NonDeterministicReflectingBasicBlockAnaliser) (instr : Nat)
    (info : DepInfo) : NonDeterministicReflectingBasicBlockAnaliser :=
  { st with m_instructionDependencies :=
      fun i => if i = instr then info else st.m_instructionDependencies i }

/-- Modelled from the spec: the base analyser's composite-element write. -/
def ReflectingBasicBlockAnaliser.updateCompositeValueDependencies
    (st : NonDeterministicReflectingBasicBlockAnaliser) (value elInstr : Nat)
    (info : ValueDepInfo) : NonDeterministicReflectingBasicBlockAnaliser :=
  { st with m_compositeDependencies :=
      fun v e =>
        if v = value then
          (if e = elInstr then some info else st.m_compositeDependencies v e)
        else st.m_compositeDependencies v e }

/-- Modelled from the spec: the base analyser's return-value write stores
the given dependency as the return-value dependency. -/
def ReflectingBasicBlockAnaliser.updateReturnValueDependencies
    (st : NonDeterministicReflectingBasicBlockAnaliser)
    (info : ValueDepInfo) : NonDeterministicReflectingBasicBlockAnaliser :=
  { st with m_returnValueDependencies := info }

/-- `NonDeterministicReflectingBasicBlockAnaliser::addOnDependencyInfo`
(DepInfo overload), `src/Analysis/DependencyAnaliser.h` lines 257-265:
return the info unchanged when it is already `INPUT_DEP`, otherwise merge
the ambient non-deterministic context into it. -/
def NonDeterministicReflectingBasicBlockAnaliser.addOnDependencyInfo
    (st : NonDeterministicReflectingBasicBlockAnaliser) (info : DepInfo) : DepInfo :=
  if info.isInputDep then info
  else info.mergeDependencies st.m_nonDeterministicDeps

/-- `NonDeterministicReflectingBasicBlockAnaliser::addOnDependencyInfo`
(ValueDepInfo overload), `src/Analysis/DependencyAnaliser.h` lines
267-274: build a same-shaped composite whose every component is the
ambient context and merge it pointwise into the info. -/
def NonDeterministicReflectingBasicBlockAnaliser.addOnDependencyInfoComposite
    (st : NonDeterministicReflectingBasicBlockAnaliser) (info : ValueDepInfo) :
    ValueDepInfo :=
  info.mergeDependencies (info.updateCompositeValueDep st.m_nonDeterministicDeps)

/-- `NonDeterministicReflectingBasicBlockAnaliser::getInstructionDependencies`,
`src/Analysis/DependencyAnaliser.h` lines 184-192. -/
def NonDeterministicReflectingBasicBlockAnaliser.getInstructionDependencies
    (st : NonDeterministicReflectingBasicBlockAnaliser) (instr : Nat) : DepInfo :=
  let depInfo := ReflectingBasicBlockAnaliser.getInstructionDependencies st instr
  if depInfo.isInputDep then depInfo
  else depInfo.mergeDependencies st.m_nonDeterministicDeps

/-- `NonDeterministicReflectingBasicBlockAnaliser::getValueDependencies`,
`src/Analysis/DependencyAnaliser.h` lines 194-205: an undefined result is
returned unchanged; an `INPUT_DEP` result skips the merge; otherwise the
ambient context is merged in. -/
def NonDeterministicReflectingBasicBlockAnaliser.getValueDependencies
    (st : NonDeterministicReflectingBasicBlockAnaliser) (value : Nat) :
    Option ValueDepInfo :=
  match ReflectingBasicBlockAnaliser.getValueDependencies st value with
  | none => none
  | some depInfo =>
      if depInfo.isInputDep then some depInfo
      else some (depInfo.mergeWith st.m_nonDeterministicDeps)

/-- `NonDeterministicReflectingBasicBlockAnaliser::getCompositeValueDependencies`,
`src/Analysis/DependencyAnaliser.h` lines 207-218. -/
def NonDeterministicReflectingBasicBlockAnaliser.getCompositeValueDependencies
    (st : NonDeterministicReflectingBasicBlockAnaliser) (value elInstr : Nat) :
    Option ValueDepInfo :=
  match ReflectingBasicBlockAnaliser.getCompositeValueDependencies st value elInstr with
  | none => none
  | some depInfo =>
      if depInfo.isInputDep then some depInfo
      else some (depInfo.mergeWith st.m_nonDeterministicDeps)

/-- `NonDeterministicReflectingBasicBlockAnaliser::updateValueDependencies`,
`src/Analysis/DependencyAnaliser.h` lines 225-228: plain delegation to the
base-class write, with no context folding. -/
def NonDeterministicReflectingBasicBlockAnaliser.updateValueDependencies
    (st : NonDeterministicReflectingBasicBlockAnaliser) (value : Nat)
    (info : ValueDepInfo) : NonDeterministicReflectingBasicBlockAnaliser :=
  ReflectingBasicBlockAnaliser.updateValueDependencies st value info

/-- `NonDeterministicReflectingBasicBlockAnaliser::updateCompositeValueDependencies`,
`src/Analysis/DependencyAnaliser.h` lines 230-235: the stored info is
`addOnDependencyInfo` of the given one. -/
def NonDeterministicReflectingBasicBlockAnaliser.updateCompositeValueDependencies
    (st : NonDeterministicReflectingBasicBlockAnaliser) (value elInstr : Nat)
    (info : ValueDepInfo) : NonDeterministicReflectingBasicBlockAnaliser :=
  ReflectingBasicBlockAnaliser.updateCompositeValueDependencies st value elInstr
    (st.addOnDependencyInfoComposite info)

/-- `NonDeterministicReflectingBasicBlockAnaliser::updateInstructionDependencies`,
`src/Analysis/DependencyAnaliser.h` lines 238-241. -/
def NonDeterministicReflectingBasicBlockAnaliser.updateInstructionDependencies
    (st : NonDeterministicReflectingBasicBlockAnaliser) (instr : Nat)
    (info : DepInfo) : NonDeterministicReflectingBasicBlockAnaliser :=
  ReflectingBasicBlockAnaliser.updateInstructionDependencies st instr
    (st.addOnDependencyInfo info)

/-- `NonDeterministicReflectingBasicBlockAnaliser::updateReturnValueDependencies`,
`src/Analysis/DependencyAnaliser.h` lines 243-246. -/
def NonDeterministicReflectingBasicBlockAnaliser.updateReturnValueDependencies
    (st : NonDeterministicReflectingBasicBlockAnaliser)
    (info : ValueDepInfo) : NonDeterministicReflectingBasicBlockAnaliser :=
  ReflectingBasicBlockAnaliser.updateReturnValueDependencies st
    (st.addOnDependencyInfoComposite info)

/-- `NonDeterministicReflectingBasicBlockAnaliser::getArgumentValueDependecnies`,
`src/Analysis/DependencyAnaliser.h` lines 248-255: an `INPUT_INDEP` base
result is returned without folding the ambient context. -/
def NonDeterministicReflectingBasicBlockAnaliser.getArgumentValueDependecnies
    (st : NonDeterministicReflectingBasicBlockAnaliser) (argVal : Nat) :
    ValueDepInfo :=
  let depInfo := ReflectingBasicBlockAnaliser.getArgumentValueDependecnies st argVal
  if depInfo.isInputIndep then depInfo
  else st.addOnDependencyInfoComposite depInfo

/-- Modelled from the spec: `Utils::haveIntersection` — whether the given
dependency set intersects the set of arguments (or globals) confirmed as
truly input dependent by the map. -/
def Utils.haveIntersection (depMap : List (Nat × DepInfo)) (selfSet : Finset Nat) :
    Bool :=
  depMap.any (fun p => p.2.isInputDep && decide (p.1 ∈ selfSet))

/-- Modelled from the spec: the second-pass promotion rule of
`finalizeResults` — an `INPUT_ARG_DEP(S)` tag becomes `INPUT_DEP` when `S`
intersects the confirmed input-dependent arguments; other tags are kept. -/
def finalizeArgDep (dependentArgs : List (Nat × DepInfo)) (d : DepInfo) : DepInfo :=
  if d.isInputArgumentDep && Utils.haveIntersection dependentArgs d.getArgumentDependencies
  then DepInfo.inputDep else d

/-- Modelled from the spec: `finalizeValueDependencies` — the same
promotion rule for `VALUE_DEP(S)` tags against confirmed global
dependencies. -/
def finalizeValueDependencies (globalsDeps : List (Nat × DepInfo)) (d : DepInfo) :
    DepInfo :=
  if d.isValueDep && Utils.haveIntersection globalsDeps d.getValueDependencies
  then DepInfo.inputDep else d

/-- The argument-promotion rule applied to a composite. -/
def finalizeArgDepComposite (dependentArgs : List (Nat × DepInfo))
    (v : ValueDepInfo) : ValueDepInfo :=
  { dep := finalizeArgDep dependentArgs v.dep,
    elementDeps := v.elementDeps.map (finalizeArgDep dependentArgs) }

/-- The global-promotion rule applied to a composite. -/
def finalizeValueDepComposite (globalsDeps : List (Nat × DepInfo))
    (v : ValueDepInfo) : ValueDepInfo :=
  { dep := finalizeValueDependencies globalsDeps v.dep,
    elementDeps := v.elementDeps.map (finalizeValueDependencies globalsDeps) }

/-- Modelled from the spec: `ReflectingBasicBlockAnaliser::finalizeResults`
— the second pass applies the argument-promotion rule to every stored
dependency; the ambient context and the block flag belong to the derived
class and are untouched. -/
def ReflectingBasicBlockAnaliser.finalizeResults
    (st : NonDeterministicReflectingBasicBlockAnaliser)
    (dependentArgs : List (Nat × DepInfo)) :
    NonDeterministicReflectingBasicBlockAnaliser :=
  { st with
    m_valueDependencies :=
      fun v => (st.m_valueDependencies v).map (finalizeArgDepComposite dependentArgs),
    m_compositeDependencies :=
      fun v e => (st.m_compositeDependencies v e).map (finalizeArgDepComposite dependentArgs),
    m_instructionDependencies :=
      fun i => finalizeArgDep dependentArgs (st.m_instructionDependencies i),
    m_argumentValueDependencies :=
      fun a => finalizeArgDepComposite dependentArgs (st.m_argumentValueDependencies a),
    m_returnValueDependencies :=
      finalizeArgDepComposite dependentArgs st.m_returnValueDependencies }

/-- Modelled from the spec: `BasicBlockAnalysisResult::finalizeGlobals` —
applies the global-promotion rule to every stored dependency; the ambient
context and the block flag belong to the derived class and are untouched. -/
def BasicBlockAnalysisResult.finalizeGlobals
    (st : NonDeterministicReflectingBasicBlockAnaliser)
    (globalsDeps : List (Nat × DepInfo)) :
    NonDeterministicReflectingBasicBlockAnaliser :=
  { st with
    m_valueDependencies :=
      fun v => (st.m_valueDependencies v).map (finalizeValueDepComposite globalsDeps),
    m_compositeDependencies :=
      fun v e => (st.m_compositeDependencies v e).map (finalizeValueDepComposite globalsDeps),
    m_instructionDependencies :=
      fun i => finalizeValueDependencies globalsDeps (st.m_instructionDependencies i),
    m_argumentValueDependencies :=
      fun a => finalizeValueDepComposite globalsDeps (st.m_argumentValueDependencies a),
    m_returnValueDependencies :=
      finalizeValueDepComposite globalsDeps st.m_returnValueDependencies }

/-- `NonDeterministicReflectingBasicBlockAnaliser::finalizeResults`,
`src/Analysis/DependencyAnaliser.h` lines 163-172: after the base pass,
the block flag `m_is_inputDep` is set when the ambient context is
`INPUT_DEP`, and when it is argument-dependent on a set intersecting the
confirmed input-dependent arguments. -/
def NonDeterministicReflectingBasicBlockAnaliser.finalizeResults
    (st : NonDeterministicReflectingBasicBlockAnaliser)
    (dependentArgs : List (Nat × DepInfo)) :
    NonDeterministicReflectingBasicBlockAnaliser :=
  { ReflectingBasicBlockAnaliser.finalizeResults st dependentArgs with
    m_is_inputDep :=
      if st.m_nonDeterministicDeps.isInputArgumentDep &&
         Utils.haveIntersection dependentArgs
           st.m_nonDeterministicDeps.getArgumentDependencies
      then true
      else if st.m_nonDeterministicDeps.isInputDep then true
      else st.m_is_inputDep }

/-- `NonDeterministicReflectingBasicBlockAnaliser::finalizeGlobals`,
`src/Analysis/DependencyAnaliser.h` lines 174-182: after the base pass,
if the ambient context is not value-dependent and carries no value
dependencies nothing more happens; otherwise the ambient context is
promoted by `finalizeValueDependencies` and the block flag absorbs
whether the promoted context became `INPUT_DEP`. -/
def NonDeterministicReflectingBasicBlockAnaliser.finalizeGlobals
    (st : NonDeterministicReflectingBasicBlockAnaliser)
    (globalsDeps : List (Nat × DepInfo)) :
    NonDeterministicReflectingBasicBlockAnaliser :=
  if st.m_nonDeterministicDeps.isValueDep = false ∧
     st.m_nonDeterministicDeps.getValueDependencies = ∅
  then BasicBlockAnalysisResult.finalizeGlobals st globalsDeps
  else
    { BasicBlockAnalysisResult.finalizeGlobals st globalsDeps with
      m_nonDeterministicDeps :=
        finalizeValueDependencies globalsDeps st.m_nonDeterministicDeps,
      m_is_inputDep := st.m_is_inputDep ||
        (finalizeValueDependencies globalsDeps st.m_nonDeterministicDeps).isInputDep }

/-- A function of the host representation, identified by a number
(`llvm::Function`). -/
structure LLVMFunction where
  fid : Nat
deriving DecidableEq

/-- A basic block together with its owning function
(`llvm::BasicBlock::getParent`). -/
structure LLVMBasicBlock where
  bid : Nat
  getParent : LLVMFunction
deriving DecidableEq

/-- An instruction together with its owning block
(`llvm::Instruction::getParent`). -/
structure LLVMInstruction where
  iid : Nat
  getParent : LLVMBasicBlock
deriving DecidableEq

/-- The per-function cached analysis result
(`CachedFunctionAnalysisResult`), kept opaque: only its query surface is
relevant to the cache. -/
structure CachedFunctionAnalysisResult where
  isInputDependentInstr : LLVMInstruction → Bool
  isInputDependentBlock : LLVMBasicBlock → Bool

/-- Association-list lookup, the embedding of map `find`. -/
def assocFind {α : Type} {β : Type} [DecidableEq α] :
    List (α × β) → α → Option β
  | [], _ => none
  | p :: rest, a => if p.1 = a then some p.2 else assocFind rest a

/-- Association-list update at an existing key. -/
def assocUpdate {α : Type} {β : Type} [DecidableEq α] :
    List (α × β) → α → β → List (α × β)
  | [], _, _ => []
  | p :: rest, a, b => if p.1 = a then (a, b) :: rest else p :: assocUpdate rest a b

/-- Map insertion that keeps an existing entry
(`std::unordered_map::insert` / `emplace` semantics). -/
def assocInsert {α : Type} {β : Type} [DecidableEq α]
    (l : List (α × β)) (a : α) (b : β) : List (α × β) :=
  match assocFind l a with
  | some _ => l
  | none => (a, b) :: l

/-- State of `CachedInputDependencyAnalysis`
(`src/Analysis/CachedInputDependencyAnalysis.cpp`): the per-function
result map `m_functionAnalisers`. -/
structure CachedInputDependencyAnalysis where
  m_functionAnalisers : List (LLVMFunction × CachedFunctionAnalysisResult)

/-- `CachedInputDependencyAnalysis::isInputDependent(F, instr)`, lines
33-41: an unregistered function soft-fails to `false`; a registered one
delegates to the stored result. -/
def CachedInputDependencyAnalysis.isInputDependent
    (st : CachedInputDependencyAnalysis) (F : LLVMFunction)
    (instr : LLVMInstruction) : Bool :=
  match assocFind st.m_functionAnalisers F with
  | none => false
  | some res => res.isInputDependentInstr instr

/-- `CachedInputDependencyAnalysis::isInputDependent(instr)`, lines
43-48: resolves the owning function through the instruction's parent
block and delegates. -/
def CachedInputDependencyAnalysis.isInputDependentOfInstr
    (st : CachedInputDependencyAnalysis) (instr : LLVMInstruction) : Bool :=
  CachedInputDependencyAnalysis.isInputDependent st instr.getParent.getParent instr

/-- `CachedInputDependencyAnalysis::isInputDependent(block)`, lines
50-58. -/
def CachedInputDependencyAnalysis.isInputDependentOfBlock
    (st : CachedInputDependencyAnalysis) (block : LLVMBasicBlock) : Bool :=
  match assocFind st.m_functionAnalisers block.getParent with
  | none => false
  | some res => res.isInputDependentBlock block

/-- `CachedInputDependencyAnalysis::getAnalysisInfo`, lines 60-76: a null
result for an unregistered function, the stored handle otherwise. -/
def CachedInputDependencyAnalysis.getAnalysisInfo
    (st : CachedInputDependencyAnalysis) (F : LLVMFunction) :
    Option CachedFunctionAnalysisResult :=
  assocFind st.m_functionAnalisers F

/-- `CachedInputDependencyAnalysis::insertAnalysisInfo`, lines 78-86:
returns failure leaving the map untouched when an entry exists, and
otherwise stores the new summary and returns success. -/
def CachedInputDependencyAnalysis.insertAnalysisInfo
    (st : CachedInputDependencyAnalysis) (F : LLVMFunction)
    (info : CachedFunctionAnalysisResult) :
    Bool × CachedInputDependencyAnalysis :=
  match assocFind st.m_functionAnalisers F with
  | some _ => (false, st)
  | none => (true, ⟨(F, info) :: st.m_functionAnalisers⟩)

/-- `CachedInputDependencyAnalysis::run`, lines 19-31: for every module
function that is not a library function, analyse it and insert the result
into the map (map insertion never overwrites). -/
def CachedInputDependencyAnalysis.run
    (isLibraryFunction : LLVMFunction → Bool)
    (analyze : LLVMFunction → CachedFunctionAnalysisResult)
    (moduleFunctions : List LLVMFunction)
    (st : CachedInputDependencyAnalysis) : CachedInputDependencyAnalysis :=
  ⟨moduleFunctions.foldl
    (fun m F => if isLibraryFunction F then m else assocInsert m F (analyze F))
    st.m_functionAnalisers⟩

/-- Modelled from the spec: `LibFunctionInfo` — a library-function model:
its name, the resolved concrete function symbol (absent until resolved),
a return-dependency formula and per-out-argument formulas; immutable once
resolved. -/
structure LibFunctionInfo where
  name : String
  resolvedFunction : Option Nat
  returnDep : DepInfo
  outArgDeps : List (Nat × DepInfo)
deriving DecidableEq

/-- `LibFunctionInfo::getName`. -/
def LibFunctionInfo.getName (l : LibFunctionInfo) : String := l.name

/-- Modelled from the spec: the resolved flag. -/
def LibFunctionInfo.isResolved (l : LibFunctionInfo) : Bool :=
  l.resolvedFunction.isSome

/-- Modelled from the spec: `resolve` binds the model to a concrete
function symbol. -/
def LibFunctionInfo.resolve (l : LibFunctionInfo) (F : Nat) : LibFunctionInfo :=
  { l with resolvedFunction := some F }

/-- State of `LibraryInfoManager` (`src/unnamed/part_000`): the
per-name library-model table `m_libraryInfo`. -/
structure LibraryInfoManager where
  m_libraryInfo : List (String × LibFunctionInfo)
deriving DecidableEq

/-- `LibraryInfoManager::hasLibFunctionInfo`, `src/unnamed/part_000`
lines 42-45. -/
def LibraryInfoManager.hasLibFunctionInfo (st : LibraryInfoManager)
    (funcName : String) : Bool :=
  (assocFind st.m_libraryInfo funcName).isSome

/-- `LibraryInfoManager::getLibFunctionInfo`, `src/unnamed/part_000`
lines 47-52; the asserted-absent case is an absent result. -/
def LibraryInfoManager.getLibFunctionInfo (st : LibraryInfoManager)
    (funcName : String) : Option LibFunctionInfo :=
  assocFind st.m_libraryInfo funcName

/-- `LibraryInfoManager::resolveLibFunctionInfo`, `src/unnamed/part_000`
lines 54-61: look the model up by demangled name; if it is already
resolved do nothing, otherwise resolve it to the given function.  The
asserted-absent lookup is an absent result. -/
def LibraryInfoManager.resolveLibFunctionInfo (st : LibraryInfoManager)
    (F : Nat) (demangledName : String) : Option LibraryInfoManager :=
  match assocFind st.m_libraryInfo demangledName with
  | none => none
  | some libF =>
      if libF.isResolved then some st
      else some ⟨assocUpdate st.m_libraryInfo demangledName (libF.resolve F)⟩

/-- `LibraryInfoManager::addLibFunctionInfo`, `src/unnamed/part_000`
lines 63-71: `emplace` keeps an existing entry for the same name and
discards the new one. -/
def LibraryInfoManager.addLibFunctionInfo (st : LibraryInfoManager)
    (funcInfo : LibFunctionInfo) : LibraryInfoManager :=
  ⟨assocInsert st.m_libraryInfo funcInfo.getName funcInfo⟩

/-- Registration of a whole collection of models in order. -/
def LibraryInfoManager.addAllLibFunctionInfo (st : LibraryInfoManager)
    (infos : List LibFunctionInfo) : LibraryInfoManager :=
  infos.foldl LibraryInfoManager.addLibFunctionInfo st

/-- The table after registering only the built-in collections
(C-library models, then string-library models), as `setup` does first. -/
def LibraryInfoManager.builtinTable (clib stl : List LibFunctionInfo) :
    LibraryInfoManager :=
  LibraryInfoManager.addAllLibFunctionInfo
    (LibraryInfoManager.addAllLibFunctionInfo ⟨[]⟩ clib) stl

/-- `LibraryInfoManager::setup`, `src/unnamed/part_000` lines 23-40: the
C-library models are registered first, then the string-library models,
then the configuration-file entries. -/
def LibraryInfoManager.setup (clib stl config : List LibFunctionInfo) :
    LibraryInfoManager :=
  LibraryInfoManager.addAllLibFunctionInfo
    (LibraryInfoManager.builtinTable clib stl) config

/-- A module function as seen by the statistics reporter: a name and the
instruction lists of its basic blocks. -/
structure StatsFunction where
  fname : String
  blocks : List (List Nat)

/-- `get_function_instrs_count`,
`src/Analysis/InputDependencyStatistics.cpp` lines 17-24: the sum of the
block instruction-list sizes. -/
def get_function_instrs_count (F : StatsFunction) : Nat :=
  (F.blocks.map List.length).sum

/-- The per-function analysis counts consumed by the statistics reporter
(the query surface of an input-dependency result). -/
structure FunctionAnalysisCounts where
  get_input_dep_count : Nat
  get_input_indep_count : Nat
  get_input_unknowns_count : Nat
  isInputDepFunction : Bool

/-- The `inputdep_data` record of
`src/Analysis/InputDependencyStatistics.h`. -/
structure inputdep_data where
  name : String
  all_instrs_count : Nat
  input_dep_instrs_count : Nat
  inputdep_functions_count : Nat
  inputdep_functions : List String

/-- A value written by `write_entry`: a number or a list of names. -/
inductive StatsValue where
  | num : Nat → StatsValue
  | names : List String → StatsValue
deriving DecidableEq

/-- `InputDependencyStatistics::report_inputdep_data`,
`src/Analysis/InputDependencyStatistics.cpp` lines 195-201: the four
entries written for one `inputdep_data` record. -/
def report_inputdep_data (data : inputdep_data) :
    List (String × String × StatsValue) :=
  [(data.name, "NumOfInst", StatsValue.num data.all_instrs_count),
   (data.name, "NumOfInDepInst", StatsValue.num data.input_dep_instrs_count),
   (data.name, "NumOfInDepFuncs", StatsValue.num data.inputdep_functions_count),
   (data.name, "InputDepFuncs", StatsValue.names data.inputdep_functions)]

/-- `InputDependencyStatistics::reportInputDependencyInfo`,
`src/Analysis/InputDependencyStatistics.cpp` lines 77-98: iterate the
analysis info, summing each function's instruction count into
`module_instructions` and each function's `get_input_indep_count()` into
`module_inputdep_instrs`, collecting the input-dependent functions, and
report the accumulated record. -/
def reportInputDependencyInfo (moduleName : String)
    (m_IDA : List (StatsFunction × FunctionAnalysisCounts)) :
    List (String × String × StatsValue) :=
  let module_instructions :=
    (m_IDA.map (fun p => get_function_instrs_count p.1)).sum
  let module_inputdep_instrs :=
    (m_IDA.map (fun p => p.2.get_input_indep_count)).sum
  let input_dep_entries := m_IDA.filter (fun p => p.2.isInputDepFunction)
  report_inputdep_data
    { name := moduleName,
      all_instrs_count := module_instructions,
      input_dep_instrs_count := module_inputdep_instrs,
      inputdep_functions_count := input_dep_entries.length,
      inputdep_functions := input_dep_entries.map (fun p => p.1.fname) }

theorem DepInfo.isInputDep_iff (x : DepInfo) :
    x.isInputDep = true ↔ x = DepInfo.inputDep := by
  cases x <;> simp [DepInfo.isInputDep]

theorem zipWith_merge_const (l : List DepInfo) (a : DepInfo) :
    List.zipWith DepInfo.mergeDependencies l (List.replicate l.length a) =
      l.map (fun e => e.mergeDependencies a) := by
  induction l with
  | nil => rfl
  | cons x xs ih => simp [List.replicate, List.zipWith, ih]

theorem addOnDependencyInfoComposite_eq
    (st : NonDeterministicReflectingBasicBlockAnaliser) (v : ValueDepInfo) :
    st.addOnDependencyInfoComposite v = v.mergeWith st.m_nonDeterministicDeps := by
  unfold NonDeterministicReflectingBasicBlockAnaliser.addOnDependencyInfoComposite
  unfold ValueDepInfo.mergeDependencies ValueDepInfo.updateCompositeValueDep
  unfold ValueDepInfo.mergeWith
  simp [zipWith_merge_const]

theorem le_addOnDependencyInfo
    (st : NonDeterministicReflectingBasicBlockAnaliser) (d : DepInfo) :
    DepInfo.le st.m_nonDeterministicDeps (st.addOnDependencyInfo d) := by
  unfold NonDeterministicReflectingBasicBlockAnaliser.addOnDependencyInfo
  by_cases h : d.isInputDep = true
  · rw [if_pos h, (DepInfo.isInputDep_iff d).1 h]
    exact DepInfo.le_inputDep _
  · rw [if_neg h]
    exact DepInfo.le_merge_right d st.m_nonDeterministicDeps

theorem assocFind_none_not_mem {α β : Type} [DecidableEq α]
    (l : List (α × β)) (a : α) (h : assocFind l a = none) :
    a ∉ l.map Prod.fst := by
  induction l with
  | nil => simp
  | cons p rest ih =>
      unfold assocFind at h
      by_cases hp : p.1 = a
      · rw [if_pos hp] at h; exact absurd h (by simp)
      · rw [if_neg hp] at h
        simp only [List.map_cons, List.mem_cons]
        rintro hmem
        rcases hmem with hmem | hmem
        · exact hp hmem.symm
        · exact ih h hmem

theorem assocFind_update_self {α β : Type} [DecidableEq α]
    (l : List (α × β)) (a : α) (b x : β) (h : assocFind l a = some x) :
    assocFind (assocUpdate l a b) a = some b := by
  induction l with
  | nil => simp [assocFind] at h
  | cons p rest ih =>
      unfold assocFind at h
      unfold assocUpdate
      by_cases hp : p.1 = a
      · rw [if_pos hp]
        simp [assocFind]
      · rw [if_neg hp]
        rw [if_neg hp] at h
        unfold assocFind
        rw [if_neg hp]
        exact ih h

theorem assocFind_insert_preserve {α β : Type} [DecidableEq α]
    (l : List (α × β)) (a n : α) (b x : β) (h : assocFind l n = some x) :
    assocFind (assocInsert l a b) n = some x := by
  unfold assocInsert
  cases hfa : assocFind l a with
  | some _ => exact h
  | none =>
      have hne : a ≠ n := by
        intro heq
        rw [heq] at hfa
        rw [hfa] at h
        exact absurd h (by simp)
      unfold assocFind
      rw [if_neg hne]
      exact h

theorem assocInsert_keys_nodup {α β : Type} [DecidableEq α]
    (l : List (α × β)) (a : α) (b : β)
    (h : List.Nodup (l.map Prod.fst)) :
    List.Nodup ((assocInsert l a b).map Prod.fst) := by
  unfold assocInsert
  cases hfa : assocFind l a with
  | some _ => exact h
  | none =>
      simp only [List.map_cons]
      exact List.Nodup.cons (assocFind_none_not_mem l a hfa) h

theorem le_finalizeArgDep (dependentArgs : List (Nat × DepInfo)) (d : DepInfo) :
    DepInfo.le d (finalizeArgDep dependentArgs d) := by
  unfold finalizeArgDep
  by_cases h : (d.isInputArgumentDep &&
      Utils.haveIntersection dependentArgs d.getArgumentDependencies) = true
  · rw [if_pos h]; exact DepInfo.le_inputDep d
  · rw [if_neg h]; exact DepInfo.le_refl d

theorem le_finalizeValueDependencies (globalsDeps : List (Nat × DepInfo)) (d : DepInfo) :
    DepInfo.le d (finalizeValueDependencies globalsDeps d) := by
  unfold finalizeValueDependencies
  by_cases h : (d.isValueDep &&
      Utils.haveIntersection globalsDeps d.getValueDependencies) = true
  · rw [if_pos h]; exact DepInfo.le_inputDep d
  · rw [if_neg h]; exact DepInfo.le_refl d

theorem leComposite_finalizeArgDep (dependentArgs : List (Nat × DepInfo))
    (v : ValueDepInfo) :
    ValueDepInfo.le v (finalizeArgDepComposite dependentArgs v) := by
  refine ⟨le_finalizeArgDep dependentArgs v.dep, ?_⟩
  unfold finalizeArgDepComposite
  simp only
  rw [List.forall₂_map_right_iff]
  exact List.forall₂_same.2 (fun x _ => le_finalizeArgDep dependentArgs x)

theorem leComposite_finalizeValueDep (globalsDeps : List (Nat × DepInfo))
    (v : ValueDepInfo) :
    ValueDepInfo.le v (finalizeValueDepComposite globalsDeps v) := by
  refine ⟨le_finalizeValueDependencies globalsDeps v.dep, ?_⟩
  unfold finalizeValueDepComposite
  simp only
  rw [List.forall₂_map_right_iff]
  exact List.forall₂_same.2 (fun x _ => le_finalizeValueDependencies globalsDeps x)

theorem optionLe_map_finalizeArg (dependentArgs : List (Nat × DepInfo))
    (o : Option ValueDepInfo) :
    optionValueDepInfoLe o (o.map (finalizeArgDepComposite dependentArgs)) := by
  cases o with
  | none => trivial
  | some v => exact leComposite_finalizeArgDep dependentArgs v

theorem optionLe_map_finalizeValue (globalsDeps : List (Nat × DepInfo))
    (o : Option ValueDepInfo) :
    optionValueDepInfoLe o (o.map (finalizeValueDepComposite globalsDeps)) := by
  cases o with
  | none => trivial
  | some v => exact leComposite_finalizeValueDep globalsDeps v

/-- The naive instruction read the spec describes: always merge the
stored dependency with the ambient non-deterministic context. -/
def specNaiveGetInstructionDependencies
    (st : NonDeterministicReflectingBasicBlockAnaliser) (instr : Nat) : DepInfo :=
  (ReflectingBasicBlockAnaliser.getInstructionDependencies st instr).mergeDependencies
    st.m_nonDeterministicDeps

/-- The naive value read the spec describes: always merge a stored
dependency with the ambient non-deterministic context. -/
def specNaiveGetValueDependencies
    (st : NonDeterministicReflectingBasicBlockAnaliser) (value : Nat) :
    Option ValueDepInfo :=
  (ReflectingBasicBlockAnaliser.getValueDependencies st value).map
    (fun d => d.mergeWith st.m_nonDeterministicDeps)

/-- The naive composite-element read the spec describes. -/
def specNaiveGetCompositeValueDependencies
    (st : NonDeterministicReflectingBasicBlockAnaliser) (value elInstr : Nat) :
    Option ValueDepInfo :=
  (ReflectingBasicBlockAnaliser.getCompositeValueDependencies st value elInstr).map
    (fun d => d.mergeWith st.m_nonDeterministicDeps)

/-- C1: a query about a function never registered in the module analysis
cache returns false (not input dependent) for the function+instruction,
instruction-only and basic-block forms, and `getAnalysisInfo` returns a
null result; for a registered function, every query delegates to that
function's stored result. -/
theorem cached_queries_soft_fail_or_delegate
    (st : CachedInputDependencyAnalysis) (F G : LLVMFunction)
    (i j : LLVMInstruction) (b c : LLVMBasicBlock)
    (r : CachedFunctionAnalysisResult)
    (hF : assocFind st.m_functionAnalisers F = none)
    (hG : assocFind st.m_functionAnalisers G = some r)
    (hi : i.getParent.getParent = F)
    (hb : b.getParent = F)
    (hj : j.getParent.getParent = G)
    (hc : c.getParent = G) :
    CachedInputDependencyAnalysis.isInputDependent st F i = false ∧
    CachedInputDependencyAnalysis.isInputDependentOfInstr st i = false ∧
    CachedInputDependencyAnalysis.isInputDependentOfBlock st b = false ∧
    CachedInputDependencyAnalysis.getAnalysisInfo st F = none ∧
    CachedInputDependencyAnalysis.isInputDependent st G j =
      r.isInputDependentInstr j ∧
    CachedInputDependencyAnalysis.isInputDependentOfInstr st j =
      r.isInputDependentInstr j ∧
    CachedInputDependencyAnalysis.isInputDependentOfBlock st c =
      r.isInputDependentBlock c ∧
    CachedInputDependencyAnalysis.getAnalysisInfo st G = some r := by
  unfold CachedInputDependencyAnalysis.isInputDependentOfInstr
  unfold CachedInputDependencyAnalysis.isInputDependentOfBlock
  unfold CachedInputDependencyAnalysis.isInputDependent
  unfold CachedInputDependencyAnalysis.getAnalysisInfo
  rw [hi, hb, hj, hc, hF, hG]
  exact ⟨rfl, rfl, rfl, rfl, rfl, rfl, rfl, rfl⟩

/-- A concrete stored per-function result used by witnesses. -/
def sampleResult : CachedFunctionAnalysisResult :=
  { isInputDependentInstr := fun instr => decide (instr.iid = 4),
    isInputDependentBlock := fun block => decide (block.bid = 2) }

/-- A concrete cache with one registered function (id 1). -/
def sampleCache : CachedInputDependencyAnalysis :=
  ⟨[(⟨1⟩, sampleResult)]⟩

theorem cached_queries_soft_fail_or_delegate_witness :
    CachedInputDependencyAnalysis.isInputDependent sampleCache ⟨0⟩
      ⟨4, ⟨2, ⟨0⟩⟩⟩ = false ∧
    CachedInputDependencyAnalysis.isInputDependentOfInstr sampleCache
      ⟨4, ⟨2, ⟨0⟩⟩⟩ = false ∧
    CachedInputDependencyAnalysis.isInputDependentOfBlock sampleCache
      ⟨2, ⟨0⟩⟩ = false ∧
    CachedInputDependencyAnalysis.getAnalysisInfo sampleCache ⟨0⟩ = none ∧
    CachedInputDependencyAnalysis.isInputDependent sampleCache ⟨1⟩
      ⟨4, ⟨2, ⟨1⟩⟩⟩ = sampleResult.isInputDependentInstr ⟨4, ⟨2, ⟨1⟩⟩⟩ ∧
    CachedInputDependencyAnalysis.isInputDependentOfInstr sampleCache
      ⟨4, ⟨2, ⟨1⟩⟩⟩ = sampleResult.isInputDependentInstr ⟨4, ⟨2, ⟨1⟩⟩⟩ ∧
    CachedInputDependencyAnalysis.isInputDependentOfBlock sampleCache
      ⟨2, ⟨1⟩⟩ = sampleResult.isInputDependentBlock ⟨2, ⟨1⟩⟩ ∧
    CachedInputDependencyAnalysis.getAnalysisInfo sampleCache ⟨1⟩ =
      some sampleResult :=
  cached_queries_soft_fail_or_delegate sampleCache ⟨0⟩ ⟨1⟩
    ⟨4, ⟨2, ⟨0⟩⟩⟩ ⟨4, ⟨2, ⟨1⟩⟩⟩ ⟨2, ⟨0⟩⟩ ⟨2, ⟨1⟩⟩ sampleResult
    rfl rfl rfl rfl rfl rfl

theorem foldl_insert_keys_nodup
    (isLib : LLVMFunction → Bool)
    (analyze : LLVMFunction → CachedFunctionAnalysisResult) :
    ∀ (fns : List LLVMFunction)
      (m : List (LLVMFunction × CachedFunctionAnalysisResult)),
      List.Nodup (m.map Prod.fst) →
      List.Nodup ((fns.foldl
        (fun m F => if isLib F then m else assocInsert m F (analyze F)) m).map
          Prod.fst)
  | [], _, h => h
  | f :: rest, m, h => by
      simp only [List.foldl_cons]
      apply foldl_insert_keys_nodup isLib analyze rest
      by_cases hf : isLib f = true
      · rw [if_pos hf]; exact h
      · rw [if_neg hf]; exact assocInsert_keys_nodup m f (analyze f) h

/-- C7: `insertAnalysisInfo` returns failure and leaves the map — and so
the previously stored summary — unchanged when an entry already exists,
and otherwise stores the new summary and returns success; `run` keeps the
function keys of the result map free of duplicates, so it never creates
two summaries for the same function. -/
theorem insertAnalysisInfo_upsert_once
    (st : CachedInputDependencyAnalysis) (F G H : LLVMFunction)
    (r info : CachedFunctionAnalysisResult)
    (isLib : LLVMFunction → Bool)
    (analyze : LLVMFunction → CachedFunctionAnalysisResult)
    (fns : List LLVMFunction)
    (hF : assocFind st.m_functionAnalisers F = some r)
    (hG : assocFind st.m_functionAnalisers G = none)
    (hH : H ≠ G)
    (hnodup : List.Nodup (st.m_functionAnalisers.map Prod.fst)) :
    CachedInputDependencyAnalysis.insertAnalysisInfo st F info = (false, st) ∧
    (CachedInputDependencyAnalysis.insertAnalysisInfo st G info).1 = true ∧
    assocFind
      (CachedInputDependencyAnalysis.insertAnalysisInfo st G info).2.m_functionAnalisers
      G = some info ∧
    assocFind
      (CachedInputDependencyAnalysis.insertAnalysisInfo st G info).2.m_functionAnalisers
      H = assocFind st.m_functionAnalisers H ∧
    List.Nodup
      (((CachedInputDependencyAnalysis.run isLib analyze fns st).m_functionAnalisers).map
        Prod.fst) := by
  unfold CachedInputDependencyAnalysis.insertAnalysisInfo
  rw [hF, hG]
  refine ⟨rfl, rfl, ?_, ?_, ?_⟩
  · have hstep : assocFind ((G, info) :: st.m_functionAnalisers) G =
        if G = G then some info else assocFind st.m_functionAnalisers G := rfl
    rw [hstep, if_pos rfl]
  · have hstep : assocFind ((G, info) :: st.m_functionAnalisers) H =
        if G = H then some info else assocFind st.m_functionAnalisers H := rfl
    rw [hstep, if_neg (fun heq => hH heq.symm)]
  · exact foldl_insert_keys_nodup isLib analyze fns st.m_functionAnalisers hnodup

theorem insertAnalysisInfo_upsert_once_witness :
    CachedInputDependencyAnalysis.insertAnalysisInfo sampleCache ⟨1⟩
      sampleResult = (false, sampleCache) ∧
    (CachedInputDependencyAnalysis.insertAnalysisInfo sampleCache ⟨0⟩
      sampleResult).1 = true ∧
    assocFind
      (CachedInputDependencyAnalysis.insertAnalysisInfo sampleCache ⟨0⟩
        sampleResult).2.m_functionAnalisers ⟨0⟩ = some sampleResult ∧
    assocFind
      (CachedInputDependencyAnalysis.insertAnalysisInfo sampleCache ⟨0⟩
        sampleResult).2.m_functionAnalisers ⟨1⟩ =
      assocFind sampleCache.m_functionAnalisers ⟨1⟩ ∧
    List.Nodup
      (((CachedInputDependencyAnalysis.run (fun F => decide (F.fid = 2))
        (fun _ => sampleResult) [⟨0⟩, ⟨2⟩, ⟨3⟩] sampleCache).m_functionAnalisers).map
          Prod.fst) :=
  insertAnalysisInfo_upsert_once sampleCache ⟨1⟩ ⟨0⟩ ⟨1⟩ sampleResult
    sampleResult (fun F => decide (F.fid = 2)) (fun _ => sampleResult)
    [⟨0⟩, ⟨2⟩, ⟨3⟩] rfl rfl (by decide) (by decide)

/-- A concrete analyser state whose ambient non-deterministic context is
`INPUT_DEP`. -/
def ndrTopContextState : NonDeterministicReflectingBasicBlockAnaliser :=
  { m_valueDependencies := fun _ => none,
    m_compositeDependencies := fun _ _ => none,
    m_instructionDependencies := fun _ => DepInfo.inputIndep,
    m_argumentValueDependencies := fun _ => ⟨DepInfo.inputIndep, []⟩,
    m_returnValueDependencies := ⟨DepInfo.inputIndep, []⟩,
    m_nonDeterministicDeps := DepInfo.inputDep,
    m_is_inputDep := false }

/-- C2 counterexample: with an `INPUT_DEP` ambient context,
`updateValueDependencies` stores an `INPUT_INDEP` dependency unchanged —
the stored entry does not carry the ambient context, so not every write
folds it in before storing. -/
theorem nondet_updateValueDependencies_does_not_fold :
    (ndrTopContextState.updateValueDependencies 0
      ⟨DepInfo.inputIndep, []⟩).m_valueDependencies 0 =
      some ⟨DepInfo.inputIndep, []⟩ ∧
    ¬ DepInfo.le ndrTopContextState.m_nonDeterministicDeps DepInfo.inputIndep ∧
    (⟨DepInfo.inputIndep, []⟩ : ValueDepInfo) ≠
      ndrTopContextState.addOnDependencyInfoComposite ⟨DepInfo.inputIndep, []⟩ := by
  refine ⟨by decide, by decide, by decide⟩

/-- C2 (amended): `updateInstructionDependencies`,
`updateReturnValueDependencies` and `updateCompositeValueDependencies`
fold the ambient non-deterministic context into the dependency before it
is stored, so those stored entries carry the context;
`getArgumentValueDependecnies` folds it in unless the base result is
`INPUT_INDEP`, in which case it is returned unchanged; and
`updateValueDependencies` delegates to the base write without folding,
storing the dependency exactly as given. -/
theorem nondet_writes_context_folding
    (st : NonDeterministicReflectingBasicBlockAnaliser)
    (value instr elInstr argVal : Nat) (d : DepInfo) (v : ValueDepInfo) :
    (st.updateInstructionDependencies instr d).m_instructionDependencies instr =
      st.addOnDependencyInfo d ∧
    DepInfo.le st.m_nonDeterministicDeps (st.addOnDependencyInfo d) ∧
    (st.updateReturnValueDependencies v).m_returnValueDependencies =
      v.mergeWith st.m_nonDeterministicDeps ∧
    DepInfo.le st.m_nonDeterministicDeps
      ((st.updateReturnValueDependencies v).m_returnValueDependencies).dep ∧
    (st.updateCompositeValueDependencies value elInstr v).m_compositeDependencies
      value elInstr = some (v.mergeWith st.m_nonDeterministicDeps) ∧
    st.getArgumentValueDependecnies argVal =
      (if (st.m_argumentValueDependencies argVal).isInputIndep
       then st.m_argumentValueDependencies argVal
       else (st.m_argumentValueDependencies argVal).mergeWith
         st.m_nonDeterministicDeps) ∧
    (st.updateValueDependencies value v).m_valueDependencies value = some v := by
  refine ⟨?_, le_addOnDependencyInfo st d, ?_, ?_, ?_, ?_, ?_⟩
  · unfold NonDeterministicReflectingBasicBlockAnaliser.updateInstructionDependencies
    unfold ReflectingBasicBlockAnaliser.updateInstructionDependencies
    simp
  · unfold NonDeterministicReflectingBasicBlockAnaliser.updateReturnValueDependencies
    unfold ReflectingBasicBlockAnaliser.updateReturnValueDependencies
    simp [addOnDependencyInfoComposite_eq]
  · unfold NonDeterministicReflectingBasicBlockAnaliser.updateReturnValueDependencies
    unfold ReflectingBasicBlockAnaliser.updateReturnValueDependencies
    simp only [addOnDependencyInfoComposite_eq, ValueDepInfo.mergeWith]
    exact DepInfo.le_merge_right v.dep st.m_nonDeterministicDeps
  · unfold NonDeterministicReflectingBasicBlockAnaliser.updateCompositeValueDependencies
    unfold ReflectingBasicBlockAnaliser.updateCompositeValueDependencies
    simp [addOnDependencyInfoComposite_eq]
  · unfold NonDeterministicReflectingBasicBlockAnaliser.getArgumentValueDependecnies
    unfold ReflectingBasicBlockAnaliser.getArgumentValueDependecnies
    by_cases h : (st.m_argumentValueDependencies argVal).isInputIndep = true
    · simp [h]
    · simp [h, addOnDependencyInfoComposite_eq]
  · unfold NonDeterministicReflectingBasicBlockAnaliser.updateValueDependencies
    unfold ReflectingBasicBlockAnaliser.updateValueDependencies
    simp

/-- A concrete analyser state storing an aggregate value whose overall
dependency is `INPUT_DEP` while one element is `INPUT_INDEP`, under an
`INPUT_DEP` ambient context. -/
def ndrAggregateState : NonDeterministicReflectingBasicBlockAnaliser :=
  { ndrTopContextState with
    m_valueDependencies := fun v =>
      if v = 0 then some ⟨DepInfo.inputDep, [DepInfo.inputIndep]⟩ else none }

/-- C3 counterexample: on an aggregate stored value whose overall
dependency is already `INPUT_DEP` but whose element is not, skipping the
merge is not equivalent to the naive read that always merges — the naive
read raises the element to `INPUT_DEP`, the optimized read does not. -/
theorem nondet_read_skip_not_equivalent_on_aggregate :
    NonDeterministicReflectingBasicBlockAnaliser.getValueDependencies
      ndrAggregateState 0 = some ⟨DepInfo.inputDep, [DepInfo.inputIndep]⟩ ∧
    specNaiveGetValueDependencies ndrAggregateState 0 =
      some ⟨DepInfo.inputDep, [DepInfo.inputDep]⟩ ∧
    NonDeterministicReflectingBasicBlockAnaliser.getValueDependencies
      ndrAggregateState 0 ≠ specNaiveGetValueDependencies ndrAggregateState 0 := by
  refine ⟨by decide, by decide, by decide⟩

/-- C3 (amended): every read merges the stored dependency with the ambient
context unless the stored one is already `INPUT_DEP`; that skip is
equivalent to the naive always-merge read for instruction reads, for the
overall dependency component of every value and composite-element read,
and for every stored value without per-element dependencies (any
non-aggregate); only the untouched elements of an aggregate whose overall
dependency is already `INPUT_DEP` can differ. -/
theorem nondet_reads_merge_equivalence
    (st : NonDeterministicReflectingBasicBlockAnaliser)
    (instr value elInstr w w2 : Nat) (d e : ValueDepInfo)
    (hv : st.m_valueDependencies value = some d)
    (hd : d.elementDeps = [])
    (hc : st.m_compositeDependencies value elInstr = some e)
    (he : e.elementDeps = []) :
    st.getInstructionDependencies instr =
      specNaiveGetInstructionDependencies st instr ∧
    (st.getValueDependencies w).map ValueDepInfo.dep =
      (specNaiveGetValueDependencies st w).map ValueDepInfo.dep ∧
    (st.getCompositeValueDependencies w w2).map ValueDepInfo.dep =
      (specNaiveGetCompositeValueDependencies st w w2).map ValueDepInfo.dep ∧
    st.getValueDependencies value = specNaiveGetValueDependencies st value ∧
    st.getCompositeValueDependencies value elInstr =
      specNaiveGetCompositeValueDependencies st value elInstr := by
  have hscalar : ∀ u : ValueDepInfo, u.elementDeps = [] →
      (if u.isInputDep then some u
       else some (u.mergeWith st.m_nonDeterministicDeps)) =
        some (u.mergeWith st.m_nonDeterministicDeps) := by
    intro u hu
    by_cases h : u.isInputDep = true
    · have hdep : u.dep = DepInfo.inputDep := by
        exact (DepInfo.isInputDep_iff u.dep).1 h
      rw [if_pos h]
      cases u with
      | mk udep uelems =>
          simp only at hdep hu
          subst hdep hu
          simp [ValueDepInfo.mergeWith, DepInfo.merge_inputDep_left]
    · rw [if_neg h]
  have hoverall : ∀ u : ValueDepInfo,
      (if u.isInputDep then some u
       else some (u.mergeWith st.m_nonDeterministicDeps)).map ValueDepInfo.dep =
        some ((u.mergeWith st.m_nonDeterministicDeps).dep) := by
    intro u
    by_cases h : u.isInputDep = true
    · have hdep : u.dep = DepInfo.inputDep := (DepInfo.isInputDep_iff u.dep).1 h
      rw [if_pos h]
      simp [ValueDepInfo.mergeWith, hdep, DepInfo.merge_inputDep_left]
    · rw [if_neg h]
      simp
  refine ⟨?_, ?_, ?_, ?_, ?_⟩
  · unfold NonDeterministicReflectingBasicBlockAnaliser.getInstructionDependencies
    unfold specNaiveGetInstructionDependencies
    unfold ReflectingBasicBlockAnaliser.getInstructionDependencies
    by_cases h : (st.m_instructionDependencies instr).isInputDep = true
    · simp only [h, if_true]
      rw [(DepInfo.isInputDep_iff _).1 h, DepInfo.merge_inputDep_left]
    · simp [h]
  · unfold NonDeterministicReflectingBasicBlockAnaliser.getValueDependencies
    unfold specNaiveGetValueDependencies
    unfold ReflectingBasicBlockAnaliser.getValueDependencies
    cases ho : st.m_valueDependencies w with
    | none => simp
    | some u => simpa using hoverall u
  · unfold NonDeterministicReflectingBasicBlockAnaliser.getCompositeValueDependencies
    unfold specNaiveGetCompositeValueDependencies
    unfold ReflectingBasicBlockAnaliser.getCompositeValueDependencies
    cases ho : st.m_compositeDependencies w w2 with
    | none => simp
    | some u => simpa using hoverall u
  · unfold NonDeterministicReflectingBasicBlockAnaliser.getValueDependencies
    unfold specNaiveGetValueDependencies
    unfold ReflectingBasicBlockAnaliser.getValueDependencies
    rw [hv]
    simpa using hscalar d hd
  · unfold NonDeterministicReflectingBasicBlockAnaliser.getCompositeValueDependencies
    unfold specNaiveGetCompositeValueDependencies
    unfold ReflectingBasicBlockAnaliser.getCompositeValueDependencies
    rw [hc]
    simpa using hscalar e he

/-- A concrete analyser state with non-aggregate stored entries under an
argument-dependent ambient context. -/
def ndrScalarState : NonDeterministicReflectingBasicBlockAnaliser :=
  { ndrTopContextState with
    m_nonDeterministicDeps := DepInfo.inputArgDep {1},
    m_valueDependencies := fun v =>
      if v = 0 then some ⟨DepInfo.inputArgDep {2}, []⟩ else none,
    m_compositeDependencies := fun v e =>
      if v = 0 ∧ e = 3 then some ⟨DepInfo.inputIndep, []⟩ else none }

theorem nondet_reads_merge_equivalence_witness :
    NonDeterministicReflectingBasicBlockAnaliser.getInstructionDependencies
      ndrScalarState 7 = specNaiveGetInstructionDependencies ndrScalarState 7 ∧
    (NonDeterministicReflectingBasicBlockAnaliser.getValueDependencies
      ndrScalarState 0).map ValueDepInfo.dep =
      (specNaiveGetValueDependencies ndrScalarState 0).map ValueDepInfo.dep ∧
    (NonDeterministicReflectingBasicBlockAnaliser.getCompositeValueDependencies
      ndrScalarState 0 3).map ValueDepInfo.dep =
      (specNaiveGetCompositeValueDependencies ndrScalarState 0 3).map
        ValueDepInfo.dep ∧
    NonDeterministicReflectingBasicBlockAnaliser.getValueDependencies
      ndrScalarState 0 = specNaiveGetValueDependencies ndrScalarState 0 ∧
    NonDeterministicReflectingBasicBlockAnaliser.getCompositeValueDependencies
      ndrScalarState 0 3 =
      specNaiveGetCompositeValueDependencies ndrScalarState 0 3 :=
  nondet_reads_merge_equivalence ndrScalarState 7 0 3 0 3
    ⟨DepInfo.inputArgDep {2}, []⟩ ⟨DepInfo.inputIndep, []⟩
    (by decide) rfl (by decide) rfl

/-- A concrete analyser state whose ambient context is `VALUE_DEP({5})`. -/
def ndrValueDepState : NonDeterministicReflectingBasicBlockAnaliser :=
  { ndrTopContextState with m_nonDeterministicDeps := DepInfo.valueDep {5} }

/-- C4: after `finalizeResults(confirmedArgumentDependencies)` the block is
marked input dependent whenever the ambient non-deterministic context is
`INPUT_DEP` or is argument-dependent on a set intersecting the confirmed
input-dependent arguments; both finalize passes apply their promotion rule
to the stored dependencies; and `finalizeGlobals` promotes the ambient
context itself to `INPUT_DEP` and marks the block when the ambient
value-dependency set intersects the confirmed global dependencies. -/
theorem nondet_finalize_marks_block
    (st : NonDeterministicReflectingBasicBlockAnaliser)
    (dependentArgs globalsDeps : List (Nat × DepInfo)) (S : Finset Nat)
    (i : Nat) :
    (st.m_nonDeterministicDeps.isInputDep = true →
      (st.finalizeResults dependentArgs).m_is_inputDep = true) ∧
    (st.m_nonDeterministicDeps.isInputArgumentDep = true →
      Utils.haveIntersection dependentArgs
        st.m_nonDeterministicDeps.getArgumentDependencies = true →
      (st.finalizeResults dependentArgs).m_is_inputDep = true) ∧
    (st.finalizeResults dependentArgs).m_instructionDependencies i =
      finalizeArgDep dependentArgs (st.m_instructionDependencies i) ∧
    (st.finalizeGlobals globalsDeps).m_instructionDependencies i =
      finalizeValueDependencies globalsDeps (st.m_instructionDependencies i) ∧
    (st.m_nonDeterministicDeps = DepInfo.valueDep S →
      Utils.haveIntersection globalsDeps S = true →
      (st.finalizeGlobals globalsDeps).m_is_inputDep = true ∧
      (st.finalizeGlobals globalsDeps).m_nonDeterministicDeps =
        DepInfo.inputDep) := by
  refine ⟨?_, ?_, rfl, ?_, ?_⟩
  · intro h
    unfold NonDeterministicReflectingBasicBlockAnaliser.finalizeResults
    simp [h]
  · intro h1 h2
    unfold NonDeterministicReflectingBasicBlockAnaliser.finalizeResults
    simp [h1, h2]
  · unfold NonDeterministicReflectingBasicBlockAnaliser.finalizeGlobals
    split <;> rfl
  · intro hamb hint
    unfold NonDeterministicReflectingBasicBlockAnaliser.finalizeGlobals
    rw [hamb]
    have hguard : ¬((DepInfo.valueDep S).isValueDep = false ∧
        (DepInfo.valueDep S).getValueDependencies = ∅) := by
      simp [DepInfo.isValueDep]
    rw [if_neg hguard]
    have hfin : finalizeValueDependencies globalsDeps (DepInfo.valueDep S) =
        DepInfo.inputDep := by
      unfold finalizeValueDependencies
      rw [if_pos]
      simp [DepInfo.isValueDep, DepInfo.getValueDependencies, hint]
    constructor
    · simp [hfin, DepInfo.isInputDep]
    · simp [hfin]

theorem nondet_finalize_marks_block_witness :
    (ndrTopContextState.finalizeResults []).m_is_inputDep = true ∧
    (ndrScalarState.finalizeResults
      [(1, DepInfo.inputDep)]).m_is_inputDep = true ∧
    (ndrValueDepState.finalizeGlobals
      [(5, DepInfo.inputDep)]).m_is_inputDep = true ∧
    (ndrValueDepState.finalizeGlobals
      [(5, DepInfo.inputDep)]).m_nonDeterministicDeps = DepInfo.inputDep :=
  ⟨(nondet_finalize_marks_block ndrTopContextState [] [] ∅ 0).1 (by decide),
   (nondet_finalize_marks_block ndrScalarState [(1, DepInfo.inputDep)] [] ∅
     0).2.1 (by decide) (by decide),
   ((nondet_finalize_marks_block ndrValueDepState [] [(5, DepInfo.inputDep)]
     {5} 0).2.2.2.2 rfl (by decide)).1,
   ((nondet_finalize_marks_block ndrValueDepState [] [(5, DepInfo.inputDep)]
     {5} 0).2.2.2.2 rfl (by decide)).2⟩

/-- C5: both finalize passes only promote: for every instruction and
value, the dependency stored after `finalizeResults` or `finalizeGlobals`
is greater than or equal to (in the lattice order) its value before the
call, and the same holds for the ambient context and the block flag. -/
theorem nondet_finalize_monotone
    (st : NonDeterministicReflectingBasicBlockAnaliser)
    (dependentArgs globalsDeps : List (Nat × DepInfo)) (instr value : Nat) :
    DepInfo.le (st.m_instructionDependencies instr)
      ((st.finalizeResults dependentArgs).m_instructionDependencies instr) ∧
    optionValueDepInfoLe (st.m_valueDependencies value)
      ((st.finalizeResults dependentArgs).m_valueDependencies value) ∧
    DepInfo.le st.m_nonDeterministicDeps
      (st.finalizeResults dependentArgs).m_nonDeterministicDeps ∧
    (st.m_is_inputDep ≤ (st.finalizeResults dependentArgs).m_is_inputDep) ∧
    DepInfo.le (st.m_instructionDependencies instr)
      ((st.finalizeGlobals globalsDeps).m_instructionDependencies instr) ∧
    optionValueDepInfoLe (st.m_valueDependencies value)
      ((st.finalizeGlobals globalsDeps).m_valueDependencies value) ∧
    DepInfo.le st.m_nonDeterministicDeps
      (st.finalizeGlobals globalsDeps).m_nonDeterministicDeps ∧
    (st.m_is_inputDep ≤ (st.finalizeGlobals globalsDeps).m_is_inputDep) := by
  refine ⟨le_finalizeArgDep dependentArgs _,
    optionLe_map_finalizeArg dependentArgs _,
    DepInfo.le_refl _, ?_, ?_, ?_, ?_, ?_⟩
  · unfold NonDeterministicReflectingBasicBlockAnaliser.finalizeResults
    simp only
    split
    · exact Bool.le_true _
    · split
      · exact Bool.le_true _
      · exact le_refl _
  · unfold NonDeterministicReflectingBasicBlockAnaliser.finalizeGlobals
    split <;> exact le_finalizeValueDependencies globalsDeps _
  · unfold NonDeterministicReflectingBasicBlockAnaliser.finalizeGlobals
    split <;> exact optionLe_map_finalizeValue globalsDeps _
  · unfold NonDeterministicReflectingBasicBlockAnaliser.finalizeGlobals
    split
    · exact DepInfo.le_refl _
    · exact le_finalizeValueDependencies globalsDeps _
  · unfold NonDeterministicReflectingBasicBlockAnaliser.finalizeGlobals
    split
    · exact le_refl _
    · cases hb : st.m_is_inputDep <;> simp [hb]

/-- C8: `resolveLibFunctionInfo` binds a library model to a concrete
function symbol exactly once — when the looked-up model is already
resolved the call is a no-op that leaves the table unchanged, and when it
is not the model becomes resolved, after which a second resolution is a
no-op. -/
theorem resolveLibFunctionInfo_binds_once
    (st : LibraryInfoManager) (F F2 : Nat) (n : String) (l : LibFunctionInfo)
    (h : assocFind st.m_libraryInfo n = some l) :
    (l.isResolved = true →
      LibraryInfoManager.resolveLibFunctionInfo st F n = some st) ∧
    (l.isResolved = false →
      LibraryInfoManager.resolveLibFunctionInfo st F n =
        some ⟨assocUpdate st.m_libraryInfo n (l.resolve F)⟩ ∧
      assocFind (assocUpdate st.m_libraryInfo n (l.resolve F)) n =
        some (l.resolve F) ∧
      LibraryInfoManager.resolveLibFunctionInfo
        ⟨assocUpdate st.m_libraryInfo n (l.resolve F)⟩ F2 n =
        some ⟨assocUpdate st.m_libraryInfo n (l.resolve F)⟩) := by
  constructor
  · intro hres
    unfold LibraryInfoManager.resolveLibFunctionInfo
    rw [h]
    simp [hres]
  · intro hres
    have hfind : assocFind (assocUpdate st.m_libraryInfo n (l.resolve F)) n =
        some (l.resolve F) :=
      assocFind_update_self st.m_libraryInfo n (l.resolve F) l h
    refine ⟨?_, hfind, ?_⟩
    · unfold LibraryInfoManager.resolveLibFunctionInfo
      rw [h]
      simp [hres]
    · unfold LibraryInfoManager.resolveLibFunctionInfo
      rw [show (⟨assocUpdate st.m_libraryInfo n (l.resolve F)⟩ :
          LibraryInfoManager).m_libraryInfo =
          assocUpdate st.m_libraryInfo n (l.resolve F) from rfl, hfind]
      simp [LibFunctionInfo.isResolved, LibFunctionInfo.resolve]

/-- A built-in-style model that is already resolved to symbol 7. -/
def printfInfo : LibFunctionInfo := ⟨"printf", some 7, DepInfo.inputDep, []⟩

/-- A built-in-style model that is not yet resolved. -/
def scanfInfo : LibFunctionInfo := ⟨"scanf", none, DepInfo.inputDep, []⟩

/-- A concrete manager holding one resolved model. -/
def resolvedLibState : LibraryInfoManager := ⟨[("printf", printfInfo)]⟩

/-- A concrete manager holding one unresolved model. -/
def unresolvedLibState : LibraryInfoManager := ⟨[("scanf", scanfInfo)]⟩

/-- The manager after resolving the `scanf` model to symbol 3. -/
def resolvedScanfState : LibraryInfoManager :=
  ⟨assocUpdate unresolvedLibState.m_libraryInfo "scanf" (scanfInfo.resolve 3)⟩

theorem resolveLibFunctionInfo_binds_once_witness :
    LibraryInfoManager.resolveLibFunctionInfo resolvedLibState 3 "printf" =
      some resolvedLibState ∧
    LibraryInfoManager.resolveLibFunctionInfo unresolvedLibState 3 "scanf" =
      some resolvedScanfState ∧
    assocFind resolvedScanfState.m_libraryInfo "scanf" =
      some (scanfInfo.resolve 3) ∧
    LibraryInfoManager.resolveLibFunctionInfo resolvedScanfState 4 "scanf" =
      some resolvedScanfState := by
  have h2 := (resolveLibFunctionInfo_binds_once unresolvedLibState 3 4 "scanf"
    scanfInfo rfl).2 rfl
  exact ⟨(resolveLibFunctionInfo_binds_once resolvedLibState 3 4 "printf"
    printfInfo rfl).1 rfl, h2.1, h2.2.1, h2.2.2⟩

theorem addAllLibFunctionInfo_preserve :
    ∀ (infos : List LibFunctionInfo) (st : LibraryInfoManager) (n : String)
      (l2 : LibFunctionInfo),
      assocFind st.m_libraryInfo n = some l2 →
      assocFind
        (LibraryInfoManager.addAllLibFunctionInfo st infos).m_libraryInfo n =
        some l2
  | [], _, _, _, h => h
  | info :: rest, st, n, l2, h => by
      unfold LibraryInfoManager.addAllLibFunctionInfo
      simp only [List.foldl_cons]
      apply addAllLibFunctionInfo_preserve rest
      unfold LibraryInfoManager.addLibFunctionInfo
      exact assocFind_insert_preserve st.m_libraryInfo info.getName n info l2 h

/-- C9: `addLibFunctionInfo` on a name already present leaves the table
unchanged and discards the new model; and since `setup` registers the
built-in collections before the configuration-file entries, every entry
of the built-in table survives `setup` unchanged — a configuration entry
colliding with a built-in never replaces the built-in model. -/
theorem addLibFunctionInfo_keeps_existing
    (st : LibraryInfoManager) (info l : LibFunctionInfo)
    (h : assocFind st.m_libraryInfo info.getName = some l) :
    LibraryInfoManager.addLibFunctionInfo st info = st ∧
    ∀ (clib stl config : List LibFunctionInfo) (n : String)
      (l2 : LibFunctionInfo),
      assocFind (LibraryInfoManager.builtinTable clib stl).m_libraryInfo n =
        some l2 →
      assocFind (LibraryInfoManager.setup clib stl config).m_libraryInfo n =
        some l2 := by
  constructor
  · unfold LibraryInfoManager.addLibFunctionInfo assocInsert
    rw [h]
  · intro clib stl config n l2 hb
    exact addAllLibFunctionInfo_preserve config _ n l2 hb

/-- A built-in model for `malloc`. -/
def mallocInfo : LibFunctionInfo := ⟨"malloc", none, DepInfo.inputIndep, []⟩

/-- A colliding configuration-file model for `malloc`. -/
def mallocConfigInfo : LibFunctionInfo := ⟨"malloc", none, DepInfo.inputDep, []⟩

/-- A built-in string-library model. -/
def strcpyInfo : LibFunctionInfo := ⟨"strcpy", none, DepInfo.inputArgDep {0}, []⟩

theorem addLibFunctionInfo_keeps_existing_witness :
    LibraryInfoManager.addLibFunctionInfo
      (LibraryInfoManager.builtinTable [mallocInfo] [strcpyInfo])
      mallocConfigInfo =
      LibraryInfoManager.builtinTable [mallocInfo] [strcpyInfo] ∧
    assocFind
      (LibraryInfoManager.setup [mallocInfo] [strcpyInfo]
        [mallocConfigInfo]).m_libraryInfo "malloc" = some mallocInfo := by
  have h := addLibFunctionInfo_keeps_existing
    (LibraryInfoManager.builtinTable [mallocInfo] [strcpyInfo])
    mallocConfigInfo mallocInfo (by decide)
  exact ⟨h.1, h.2 [mallocInfo] [strcpyInfo] [mallocConfigInfo] "malloc"
    mallocInfo (by decide)⟩

/-- C10: the `NumOfInDepInst` entry reported by
`reportInputDependencyInfo` for the module equals the sum, over all
functions in the analysis info, of `get_input_indep_count()` — the
per-function count of input-independent instructions. -/
theorem statistics_NumOfInDepInst_is_indep_sum
    (moduleName : String)
    (m_IDA : List (StatsFunction × FunctionAnalysisCounts)) :
    (moduleName, "NumOfInDepInst",
      StatsValue.num ((m_IDA.map
        (fun p => p.2.get_input_indep_count)).sum)) ∈
      reportInputDependencyInfo moduleName m_IDA := by
  unfold reportInputDependencyInfo report_inputdep_data
  simp
